import Mathlib

/-!
Verification development for a marketing-campaign analytics pipeline.

The pipeline (Loader → Cleaner → {CohortEngine, SegmentEngine, ChannelEngine})
is shallowly embedded here: pandas columns become `Option`-valued record
fields (a `none` models a NaN/NaT cell), floats become rationals, and the
column-wise dataframe operations become pure functions on lists of records.
Each section names the source file and function it embeds.
-/

/- The Batteries rational operations are `@[irreducible]`, which blocks the
`decide` tactic's evaluator on any concrete ℚ computation; restore their
natural reducibility so concrete runs of the embedded pipeline evaluate. -/
unseal Rat.add Rat.mul Rat.sub Rat.inv

/-! ### Basic string parsing (data_loader.validate_data, data_cleaner)

`float(...)` / `pd.to_numeric` coercion is modelled by a plain decimal
parser over the character list of the cell.  Scientific notation and
surrounding whitespace, which Python's float parser would also accept, do
not occur in this data set and are not modelled. -/

def parseNatChars (l : List Char) : Option Nat :=
  if l ≠ [] ∧ l.all Char.isDigit then
    some (l.foldl (fun a c => a * 10 + (c.toNat - 48)) 0)
  else none

/-- Digits-only fragments around an optional decimal point, as produced by
`splitOnChar`. -/
def splitOnCharAux (sep : Char) (cur : List Char) : List Char → List (List Char)
  | [] => [cur.reverse]
  | c :: cs =>
    if c = sep then cur.reverse :: splitOnCharAux sep [] cs
    else splitOnCharAux sep (c :: cur) cs

def splitOnChar (sep : Char) (l : List Char) : List (List Char) :=
  splitOnCharAux sep [] l

/-- Unsigned decimal literal: `"16174.00"`, `"16."`, `".5"`, `"7"`. -/
def parseUnsignedDecimal (l : List Char) : Option ℚ :=
  match splitOnChar '.' l with
  | [ip] => (parseNatChars ip).map (fun n => (n : ℚ))
  | [ip, fp] =>
    if ip = [] ∧ fp = [] then none
    else
      match (if ip = [] then some 0 else parseNatChars ip),
            (if fp = [] then some 0 else parseNatChars fp) with
      | some i, some f => some ((i : ℚ) + (f : ℚ) / ((10 : ℚ) ^ fp.length))
      | _, _ => none
  | _ => none

def parseDecimalChars (l : List Char) : Option ℚ :=
  match l with
  | '-' :: rest => (parseUnsignedDecimal rest).map (fun q => -q)
  | _ => parseUnsignedDecimal l

/-- Models `pd.to_numeric` on one cell (data_loader.validate_data line 68). -/
def parseNumeric (s : String) : Option ℚ :=
  parseDecimalChars s.data

/-- Currency coercion (data_loader.validate_data line 72, and the
string branch of data_cleaner.validate_numeric_ranges line 160):
`.str.replace('$', '').str.replace(',', '').astype(float)`.
`str.replace` with a literal pattern removes every occurrence, modelled by
filtering the two characters out of the cell before parsing. -/
def parseCurrency (s : String) : Option ℚ :=
  parseDecimalChars (s.data.filter (fun c => ¬ (c = '$' ∨ c = ',')))

/-! ### Calendar dates

`pd.to_datetime` values are modelled at day granularity; `.dt.to_period('M')`
becomes `Date.monthIndex`, an absolute month number, so that subtracting two
periods (cohort_analysis line 37-40) is integer subtraction. -/

structure Date where
  year : ℤ
  month : Nat
  day : Nat
deriving DecidableEq

def Date.monthIndex (d : Date) : ℤ := d.year * 12 + (d.month : ℤ) - 1

/-- Calendar order on dates (month, then day — months are 1..12 in parsed
dates, so this is the usual lexicographic order on (year, month, day)). -/
def dateLe (a b : Date) : Prop :=
  a.monthIndex < b.monthIndex ∨ (a.monthIndex = b.monthIndex ∧ (a.day : ℤ) ≤ (b.day : ℤ))

instance : DecidableRel dateLe := fun a b => by
  unfold dateLe; infer_instance

/-- ISO date parsing (`pd.to_datetime`, data_loader.validate_data line 64),
restricted to the `YYYY-MM-DD` shape the data set uses. -/
def parseDate (s : String) : Option Date :=
  match splitOnChar '-' s.data with
  | [y, m, d] =>
    match parseNatChars y, parseNatChars m, parseNatChars d with
    | some y', some m', some d' =>
      if 1 ≤ m' ∧ m' ≤ 12 ∧ 1 ≤ d' ∧ d' ≤ 31 then some ⟨(y' : ℤ), m', d'⟩ else none
    | _, _, _ => none
  | _ => none

/-! ### Medians and rounding -/

def insertSorted (x : ℚ) : List ℚ → List ℚ
  | [] => [x]
  | y :: ys => if x ≤ y then x :: y :: ys else y :: insertSorted x ys

def sortQ (l : List ℚ) : List ℚ := l.foldr insertSorted []

/-- Models `Series.median()` over the non-null values of a column: middle element of
the sorted values, or the average of the two middle elements; `none` models
the NaN median of an all-null column. -/
def median (l : List ℚ) : Option ℚ :=
  let s := sortQ l
  let n := s.length
  if n = 0 then none
  else if n % 2 = 1 then some (s.getD (n / 2) 0)
  else some ((s.getD (n / 2 - 1) 0 + s.getD (n / 2) 0) / 2)

/-- Python's `round` (as used via `Series.round`) is round-half-to-even. -/
def roundHalfEven (q : ℚ) : ℤ :=
  let f := ⌊q⌋
  let r := q - (f : ℚ)
  if r < 1 / 2 then f
  else if 1 / 2 < r then f + 1
  else if f % 2 = 0 then f else f + 1

def roundTo (digits : Nat) (q : ℚ) : ℚ :=
  (roundHalfEven (q * (10 : ℚ) ^ digits) : ℚ) / (10 : ℚ) ^ digits

/-! ### Loader (src/src/data/data_loader.py, MarketingDataLoader)

A raw CSV row: every required column as an optional string cell (a `none`
cell is a null in the CSV, which `read_csv` turns into NaN).  The schema
check (presence of the 16 required columns) is a property of the header and
is implicit in the record type. -/

structure RawRow where
  campaign_id : Option String
  company : Option String
  campaign_type : Option String
  target_audience : Option String
  duration : Option String
  channel_used : Option String
  conversion_rate : Option String
  acquisition_cost : Option String
  roi : Option String
  location : Option String
  language : Option String
  clicks : Option String
  impressions : Option String
  engagement_score : Option String
  customer_segment : Option String
  date : Option String
deriving DecidableEq

/-- A record after the Loader's type coercion; this is also the Cleaner's
input.  `none` in a coerced field models a NaN (resp. NaT) cell, which
every pandas coercion passes through without error. -/
structure CRecord where
  campaign_id : Option String
  company : Option String
  campaign_type : Option String
  target_audience : Option String
  duration : Option String
  channel_used : Option String
  conversion_rate : Option ℚ
  acquisition_cost : Option ℚ
  roi : Option ℚ
  location : Option String
  language : Option String
  clicks : Option ℚ
  impressions : Option ℚ
  engagement_score : Option ℚ
  customer_segment : Option String
  date : Option Date
deriving DecidableEq

/-- Coercion of one nullable cell: a null passes through as NaN, a present
cell must parse or the whole coercion raises. -/
def coerceCell (p : String → Option α) : Option String → Option (Option α)
  | none => some none
  | some s => (p s).map some

/-- validate_data's type-coercion block (data_loader lines 61-76) for a
single row: date, the five numeric columns, then the currency column.  The
source coerces column-by-column and mutates the frame in place, but since a
single failed cell makes `validate_data` return False and `load_data`
return None, the row-by-row formulation yields the same verdict and the
same loaded records. -/
def coerceRow (r : RawRow) : Option CRecord := do
  let d ← coerceCell parseDate r.date
  let cl ← coerceCell parseNumeric r.clicks
  let im ← coerceCell parseNumeric r.impressions
  let es ← coerceCell parseNumeric r.engagement_score
  let cv ← coerceCell parseNumeric r.conversion_rate
  let ro ← coerceCell parseNumeric r.roi
  let ac ← coerceCell parseCurrency r.acquisition_cost
  some { campaign_id := r.campaign_id, company := r.company,
         campaign_type := r.campaign_type, target_audience := r.target_audience,
         duration := r.duration, channel_used := r.channel_used,
         conversion_rate := cv, acquisition_cost := ac, roi := ro,
         location := r.location, language := r.language,
         clicks := cl, impressions := im, engagement_score := es,
         customer_segment := r.customer_segment, date := d }

/-- Option-valued map over all rows (structural form of `List.mapM`). -/
def coerceAll : List RawRow → Option (List CRecord)
  | [] => some []
  | r :: rs =>
    match coerceRow r, coerceAll rs with
    | some c, some cs => some (c :: cs)
    | _, _ => none

/-- load_data (data_loader lines 80-100): on any coercion exception
validate_data returns False and load_data returns None; otherwise the whole
coerced dataset is returned. -/
def load_data (rows : List RawRow) : Option (List CRecord) :=
  coerceAll rows

/-! ### Cleaner (src/src/data/data_cleaner.py, MarketingDataCleaner)

Each cleaning step is a pure function on `List CRecord`.  Column access and
assignment are expressed through getter/setter pairs so that one definition
per kind of pandas statement covers the per-column loops of the source. -/

/-- One iteration of the numeric loop of handle_missing_values (lines 43-48):
`df[col].fillna(df[col].median(), inplace=True)`.  The median is taken over
the non-null cells; if the whole column is null the median is NaN and
filling with it changes nothing (the `isnull().any()` guard of the source
is behaviourally equivalent and omitted). -/
def fillNumCol (get : CRecord → Option ℚ) (set : Option ℚ → CRecord → CRecord)
    (df : List CRecord) : List CRecord :=
  match median (df.filterMap get) with
  | some m => df.map (fun r => set (some ((get r).getD m)) r)
  | none => df

/-- One iteration of the categorical loop of handle_missing_values
(lines 50-54): `df[col].fillna('Unknown', inplace=True)`. -/
def fillCatCol (get : CRecord → Option String) (set : Option String → CRecord → CRecord)
    (df : List CRecord) : List CRecord :=
  df.map (fun r => set (some ((get r).getD "Unknown")) r)

/-- handle_missing_values (lines 33-56): numeric columns filled with the
column median, categorical columns filled with the sentinel "Unknown". -/
def handle_missing_values (df : List CRecord) : List CRecord :=
  fillCatCol (fun r => r.customer_segment) (fun v r => { r with customer_segment := v })
    (fillCatCol (fun r => r.language) (fun v r => { r with language := v })
      (fillCatCol (fun r => r.location) (fun v r => { r with location := v })
        (fillCatCol (fun r => r.target_audience) (fun v r => { r with target_audience := v })
          (fillCatCol (fun r => r.channel_used) (fun v r => { r with channel_used := v })
            (fillCatCol (fun r => r.campaign_type) (fun v r => { r with campaign_type := v })
              (fillNumCol (fun r => r.roi) (fun v r => { r with roi := v })
                (fillNumCol (fun r => r.conversion_rate) (fun v r => { r with conversion_rate := v })
                  (fillNumCol (fun r => r.engagement_score) (fun v r => { r with engagement_score := v })
                    (fillNumCol (fun r => r.impressions) (fun v r => { r with impressions := v })
                      (fillNumCol (fun r => r.clicks) (fun v r => { r with clicks := v }) df))))))))))

/-- Models `df.drop_duplicates(subset=['Campaign_ID'], keep='first')`
(remove_duplicates, lines 58-75): keep the first record for each
Campaign_ID value (two null ids also count as duplicates, as in pandas). -/
def dedupByKey (seen : List (Option String)) : List CRecord → List CRecord
  | [] => []
  | r :: rs =>
    if r.campaign_id ∈ seen then dedupByKey seen rs
    else r :: dedupByKey (r.campaign_id :: seen) rs

def remove_duplicates (df : List CRecord) : List CRecord :=
  dedupByKey [] df

/-- Python's `str.title()` on the character list of a cell: an alphabetic
character is uppercased after a non-alphabetic character (or at the start)
and lowercased otherwise. -/
def titleChars : Bool → List Char → List Char
  | _, [] => []
  | prevAlpha, c :: cs =>
    if c.isAlpha then
      (if prevAlpha then c.toLower else c.toUpper) :: titleChars true cs
    else c :: titleChars false cs

def titleCase (s : String) : String :=
  ⟨titleChars false s.data⟩

/-- normalize_categorical_values (lines 117-139): title-case
Campaign_Type, Channel_Used, Location and Customer_Segment (`.str.title()`
keeps a NaN cell NaN). -/
def normalize_categorical_values (df : List CRecord) : List CRecord :=
  df.map (fun r =>
    { r with campaign_type := r.campaign_type.map titleCase,
             channel_used := r.channel_used.map titleCase,
             location := r.location.map titleCase,
             customer_segment := r.customer_segment.map titleCase })

/-- The mask `df[col] < 0` on one cell: false on NaN, as in pandas. -/
def negCell : Option ℚ → Bool
  | none => false
  | some v => v < 0

/-- The mask `(df[col] < 0) | (df[col] > 1)` on one cell. -/
def badConvCell : Option ℚ → Bool
  | none => false
  | some v => v < 0 ∨ 1 < v

/-- One iteration of the positivity loop of validate_numeric_ranges
(lines 151-156): when the column has any negative value, the statement
`df.loc[invalid_mask, col] = df[col].median()` replaces every negative cell
by the median of the current column — a median computed over all present
values, the negative ones included.  (The `none` median branch is
unreachable: a negative cell makes the column non-empty.) -/
def repairNegCol (get : CRecord → Option ℚ) (set : Option ℚ → CRecord → CRecord)
    (df : List CRecord) : List CRecord :=
  if df.any (fun r => negCell (get r)) then
    match median (df.filterMap get) with
    | some m => df.map (fun r => if negCell (get r) then set (some m) r else r)
    | none => df
  else df

/-- The conversion-rate clamp of validate_numeric_ranges (lines 162-166):
cells outside [0, 1] are replaced by the current column median. -/
def repairConvCol (df : List CRecord) : List CRecord :=
  if df.any (fun r => badConvCell r.conversion_rate) then
    match median (df.filterMap (fun r => r.conversion_rate)) with
    | some m => df.map (fun r =>
        if badConvCell r.conversion_rate then { r with conversion_rate := some m } else r)
    | none => df
  else df

/-- validate_numeric_ranges (lines 141-168).  The Acquisition_Cost branch
(lines 158-160) only fires when the column still holds strings; after the
Loader's coercion the column is numeric, so this step never touches
Acquisition_Cost here (the string stripping itself is `parseCurrency`
above).  Note no sign or range check is applied to Acquisition_Cost. -/
def validate_numeric_ranges (df : List CRecord) : List CRecord :=
  repairConvCol
    (repairNegCol (fun r => r.engagement_score) (fun v r => { r with engagement_score := v })
      (repairNegCol (fun r => r.impressions) (fun v r => { r with impressions := v })
        (repairNegCol (fun r => r.clicks) (fun v r => { r with clicks := v }) df)))

/-- Models `df['Duration'].str.extract(r'(\d+)')`: the first maximal digit run. -/
def firstDigitRun : List Char → List Char
  | [] => []
  | c :: cs => if c.isDigit then (c :: cs).takeWhile Char.isDigit else firstDigitRun cs

def extractLeadingNat (s : String) : Option ℚ :=
  (parseNatChars (firstDigitRun s.data)).map (fun n => (n : ℚ))

/-- Models `pd.cut(..., bins=[0, 7, 30, inf], labels=[Short, Medium, Long])`:
values outside every bin (and NaN) become NaN. -/
def durationCategory : Option ℚ → Option String
  | none => none
  | some d =>
    if 0 < d ∧ d ≤ 7 then some "Short"
    else if 7 < d ∧ d ≤ 30 then some "Medium"
    else if 30 < d then some "Long"
    else none

/-- Models `pd.cut(..., bins=[0, 3, 6, 10], labels=[Low, Medium, High])`. -/
def engagementCategory : Option ℚ → Option String
  | none => none
  | some e =>
    if 0 < e ∧ e ≤ 3 then some "Low"
    else if 3 < e ∧ e ≤ 6 then some "Medium"
    else if 6 < e ∧ e ≤ 10 then some "High"
    else none

/-- Models `df['Clicks'] / df['Impressions']`; a zero or null denominator yields
inf/NaN in pandas, modelled as an absent value (no claim depends on it). -/
def engagementRate (clicks impressions : Option ℚ) : Option ℚ :=
  match clicks, impressions with
  | some c, some i => if i = 0 then none else some (c / i)
  | _, _ => none

/-- A cleaned record: the Cleaner's input columns plus the seven derived
columns of create_derived_features (lines 77-115). -/
structure CleanedRecord extends CRecord where
  campaign_duration : Option ℚ
  duration_category : Option String
  engagement_rate : Option ℚ
  month : Option Nat
  quarter : Option Nat
  year : Option ℤ
  engagement_category : Option String
deriving DecidableEq

/-- create_derived_features (lines 77-115), for the textual-Duration case
the dataset has (`"30 days"` strings). -/
def create_derived_features (df : List CRecord) : List CleanedRecord :=
  df.map (fun r =>
    { toCRecord := r,
      campaign_duration := r.duration.bind extractLeadingNat,
      duration_category := durationCategory (r.duration.bind extractLeadingNat),
      engagement_rate := engagementRate r.clicks r.impressions,
      month := r.date.map (fun d => d.month),
      quarter := r.date.map (fun d => (d.month + 2) / 3),
      year := r.date.map (fun d => d.year),
      engagement_category := engagementCategory r.engagement_score })

structure CleaningSummary where
  initial_rows : Nat
  final_rows : Nat
  rows_removed : ℤ
deriving DecidableEq

/-- clean_data (lines 170-205): the five steps in source order, plus the
row-count summary. -/
def clean_data (df : List CRecord) : List CleanedRecord × CleaningSummary :=
  let d1 := handle_missing_values df
  let d2 := remove_duplicates d1
  let d3 := normalize_categorical_values d2
  let d4 := validate_numeric_ranges d3
  let d5 := create_derived_features d4
  (d5, { initial_rows := df.length, final_rows := d5.length,
         rows_removed := (df.length : ℤ) - (d5.length : ℤ) })

/-- The record set on which validate_numeric_ranges operates inside
clean_data (the first three steps applied). -/
def preRepair (df : List CRecord) : List CRecord :=
  normalize_categorical_values (remove_duplicates (handle_missing_values df))

/-! ### Cleaner lemmas -/

/-- The predicate "present values of this cell are non-negative" — trivially true of NaN,
matching how the spec's bounds can only speak about present values. -/
def optNonneg : Option ℚ → Prop
  | none => True
  | some v => 0 ≤ v

instance : DecidablePred optNonneg := fun o =>
  match o with
  | none => Decidable.isTrue trivial
  | some v => inferInstanceAs (Decidable (0 ≤ v))

/-- The predicate "present values of this cell lie in [0, 1]". -/
def optInUnit : Option ℚ → Prop
  | none => True
  | some v => 0 ≤ v ∧ v ≤ 1

instance : DecidablePred optInUnit := fun o =>
  match o with
  | none => Decidable.isTrue trivial
  | some v => inferInstanceAs (Decidable (0 ≤ v ∧ v ≤ 1))

/-! #### Row-count and key lemmas for the Cleaner -/

def keysOf (l : List CRecord) : List (Option String) :=
  l.map (fun r => r.campaign_id)

/-- A loaded record with a negative Acquisition_Cost (e.g. from a CSV cell
`"-$5.00"`) and an all-negative Clicks column. -/
def exBadRecord : CRecord :=
  { campaign_id := some "C001", company := some "Acme",
    campaign_type := some "Email", target_audience := some "Men 18-24",
    duration := some "30 days", channel_used := some "Google Ads",
    conversion_rate := some (1/2), acquisition_cost := some (-5),
    roi := some 1, location := some "New York", language := some "English",
    clicks := some (-3), impressions := some 100, engagement_score := some 5,
    customer_segment := some "Foodies", date := some ⟨2023, 1, 15⟩ }

/-- A well-formed record on which the amended invariant's provisos hold. -/
def exGoodRecord : CRecord :=
  { campaign_id := some "C002", company := some "Acme",
    campaign_type := some "Email", target_audience := some "Men 18-24",
    duration := some "30 days", channel_used := some "Google Ads",
    conversion_rate := some (1/2), acquisition_cost := some 20,
    roi := some 2, location := some "New York", language := some "English",
    clicks := some 10, impressions := some 100, engagement_score := some 5,
    customer_segment := some "Foodies", date := some ⟨2023, 1, 15⟩ }

/-! ### CohortEngine (src/src/analysis/cohort_analysis.py, CohortAnalyzer)

Input rows are cleaned records re-read from CSV, carrying the fields this
engine uses.  `create_cohorts` first sorts by (Date, Campaign_ID); the sort
only permutes rows, and every quantity below (per-group minima, group
filters, distinct counts) is invariant under permutation, so it is omitted. -/

structure CampaignRow where
  campaign_id : String
  target_audience : String
  date : Date
  conversion_rate : ℚ
  roi : ℚ
deriving DecidableEq

def dateMin (a b : Date) : Date := if dateLe b a then b else a

/-- Minimum of a non-empty date column (`df.groupby(...)['Date'].transform('min')`). -/
def minDateList (d : Date) (l : List Date) : Date := l.foldl dateMin d

def audienceDates (df : List CampaignRow) (a : String) : List Date :=
  (df.filter (fun r => r.target_audience = a)).map (fun r => r.date)

/-- The group's first-interaction month: minimum date of the
Target_Audience group, truncated to month (cohort_analysis lines 37-40).
The `[]` case never arises for the audience of a record of `df`. -/
def baselineMonth (df : List CampaignRow) (a : String) : ℤ :=
  match audienceDates df a with
  | [] => 0
  | d :: ds => (minDateList d ds).monthIndex

structure CohortRow where
  campaign_id : String
  target_audience : String
  date : Date
  conversion_rate : ℚ
  roi : ℚ
  cohort_month : ℤ
  months_since_first : ℤ
deriving DecidableEq

/-- create_cohorts (lines 20-42): `Cohort_Month` is the record's own month
(`df['Date'].dt.to_period('M')`), and `Months_Since_First_Campaign` is the
difference in whole months to the audience group's first month. -/
def create_cohorts (df : List CampaignRow) : List CohortRow :=
  df.map (fun r =>
    { campaign_id := r.campaign_id, target_audience := r.target_audience,
      date := r.date, conversion_rate := r.conversion_rate, roi := r.roi,
      cohort_month := r.date.monthIndex,
      months_since_first := r.date.monthIndex - baselineMonth df r.target_audience })

/-- One cell's record bucket in the (Cohort_Month × Months_Since) pivot. -/
def cohortGroup (adf : List CohortRow) (cm off : ℤ) : List CohortRow :=
  adf.filter (fun r => r.cohort_month = cm ∧ r.months_since_first = off)

/-- Models `agg({'Target_Audience': 'nunique'})` on one bucket. -/
def nuniqueAudience (l : List CohortRow) : Nat :=
  (l.map (fun r => r.target_audience)).dedup.length

/-- One cell of the un-normalized retention pivot (cohort_analysis lines
56-64): an empty bucket is an absent (NaN) cell, not zero. -/
def cohortCell (adf : List CohortRow) (cm off : ℤ) : Option ℚ :=
  if cohortGroup adf cm off = [] then none
  else some ((nuniqueAudience (cohortGroup adf cm off) : ℚ))

/-- One cell of the normalized retention matrix:
`retention_matrix.div(retention_matrix[0], axis=0)` (line 67).  Dividing by
an absent month-0 cell, or dividing an absent cell, yields NaN (`none`). -/
def retentionCell (adf : List CohortRow) (cm off : ℤ) : Option ℚ :=
  match cohortCell adf cm off, cohortCell adf cm 0 with
  | some x, some d => some (x / d)
  | _, _ => none

/-- The retention matrix's row labels: the distinct cohort months. -/
def cohortMonths (adf : List CohortRow) : List ℤ :=
  (adf.map (fun r => r.cohort_month)).dedup

def exCohortDf : List CampaignRow :=
  [{ campaign_id := "C1", target_audience := "A", date := ⟨2023, 1, 15⟩,
     conversion_rate := 1/2, roi := 1 },
   { campaign_id := "C2", target_audience := "A", date := ⟨2023, 3, 10⟩,
     conversion_rate := 1/3, roi := 2 }]

def exCohortRow : CohortRow :=
  { campaign_id := "C1", target_audience := "A", date := ⟨2023, 1, 15⟩,
    conversion_rate := 1/2, roi := 1, cohort_month := 24276, months_since_first := 0 }

def exCohortDfOne : List CampaignRow :=
  [{ campaign_id := "C1", target_audience := "A", date := ⟨2023, 1, 15⟩,
     conversion_rate := 1/2, roi := 1 }]

/-! ### ChannelEngine (src/src/analysis/channel_analysis.py, ChannelAnalyzer) -/

structure ChRecord where
  channel : String
  conversion_rate : ℚ
  roi : ℚ
  acquisition_cost : ℚ
  engagement_score : ℚ
  engagement_rate : ℚ
deriving DecidableEq

/-- Models `Series.mean()` of a non-empty column (an empty group cannot occur for
the channels enumerated below; pandas would give NaN there). -/
def qmean (l : List ℚ) : ℚ := l.sum / l.length

/-- Models `df['Channel_Used'].unique()` in first-appearance order. -/
def dedupFirstStr (seen : List String) : List String → List String
  | [] => []
  | x :: xs => if x ∈ seen then dedupFirstStr seen xs else x :: dedupFirstStr (x :: seen) xs

def uniqueChannels (df : List ChRecord) : List String :=
  dedupFirstStr [] (df.map (fun r => r.channel))

def channelRows (df : List ChRecord) (ch : String) : List ChRecord :=
  df.filter (fun r => r.channel = ch)

def channelMean (df : List ChRecord) (ch : String) (get : ChRecord → ℚ) : ℚ :=
  qmean ((channelRows df ch).map get)

def globalMean (df : List ChRecord) (get : ChRecord → ℚ) : ℚ :=
  qmean (df.map get)

/-- The fixed advisory templates of calculate_channel_recommendations
(channel_analysis lines 212-267); the payload is the channel mean the
source interpolates into the f-string. -/
inductive Advisory where
  | increaseBudget (roi : ℚ)
  | reviewStrategy (roi : ℚ)
  | lowConversion (c : ℚ)
  | highCost (c : ℚ)
  | lowEngagement (e : ℚ)
  | lowEngagementRate (e : ℚ)
deriving DecidableEq

/-- The per-channel body of calculate_channel_recommendations: the ROI
comparison appends a string on BOTH branches (`>` global mean vs not); the
other four comparisons append only on the unfavourable side. -/
def recsFor (df : List ChRecord) (ch : String) : List Advisory :=
  (if channelMean df ch (fun r => r.roi) > globalMean df (fun r => r.roi) then
    [Advisory.increaseBudget (channelMean df ch (fun r => r.roi))]
  else
    [Advisory.reviewStrategy (channelMean df ch (fun r => r.roi))]) ++
  (if channelMean df ch (fun r => r.conversion_rate) < globalMean df (fun r => r.conversion_rate) then
    [Advisory.lowConversion (channelMean df ch (fun r => r.conversion_rate))] else []) ++
  (if channelMean df ch (fun r => r.acquisition_cost) > globalMean df (fun r => r.acquisition_cost) then
    [Advisory.highCost (channelMean df ch (fun r => r.acquisition_cost))] else []) ++
  (if channelMean df ch (fun r => r.engagement_score) < globalMean df (fun r => r.engagement_score) then
    [Advisory.lowEngagement (channelMean df ch (fun r => r.engagement_score))] else []) ++
  (if channelMean df ch (fun r => r.engagement_rate) < globalMean df (fun r => r.engagement_rate) then
    [Advisory.lowEngagementRate (channelMean df ch (fun r => r.engagement_rate))] else [])

def calculate_channel_recommendations (df : List ChRecord) : List (String × List Advisory) :=
  (uniqueChannels df).map (fun ch => (ch, recsFor df ch))

/-- One-way ANOVA F-statistic over the channel groups, in the closed form
scipy's `stats.f_oneway` computes (between-group over within-group mean
squares). -/
def fStat (groups : List (List ℚ)) : ℚ :=
  (((groups.map (fun g => (g.length : ℚ) * (qmean g - (groups.map List.sum).sum / ((groups.map (fun g => (g.length : ℚ))).sum))^2)).sum)
      / ((groups.length : ℚ) - 1))
    / (((groups.map (fun g => (g.map (fun x => (x - qmean g)^2)).sum)).sum)
      / (((groups.map (fun g => (g.length : ℚ))).sum) - (groups.length : ℚ)))

structure AnovaResult where
  f_statistic : ℚ
  p_value : ℚ
  significant : Bool
deriving DecidableEq

/-- One entry of perform_statistical_analysis (channel_analysis lines
144-153): the F-statistic and p-value are ROUNDED to 3 decimals for the
report, while `significant` is computed from the UNROUNDED p-value.  `sf`
stands for the survival function of the F distribution that scipy
evaluates to produce the p-value from the F-statistic: a transcendental
library function, taken here as a parameter. -/
def anovaEntry (sf : ℚ → ℚ) (groups : List (List ℚ)) : AnovaResult :=
  { f_statistic := roundTo 3 (fStat groups),
    p_value := roundTo 3 (sf (fStat groups)),
    significant := decide (sf (fStat groups) < 1/20) }

def metricGroups (df : List ChRecord) (get : ChRecord → ℚ) : List (List ℚ) :=
  (uniqueChannels df).map (fun ch => (channelRows df ch).map get)

def anovaFor (sf : ℚ → ℚ) (df : List ChRecord) (get : ChRecord → ℚ) : AnovaResult :=
  anovaEntry sf (metricGroups df get)

/-- perform_statistical_analysis (lines 132-159), ANOVA part: one entry per
metric in {Conversion_Rate, ROI, Engagement_Score}. -/
def perform_statistical_analysis (sf : ℚ → ℚ) (df : List ChRecord) :
    List (String × AnovaResult) :=
  [("Conversion_Rate_anova", anovaFor sf df (fun r => r.conversion_rate)),
   ("ROI_anova", anovaFor sf df (fun r => r.roi)),
   ("Engagement_Score_anova", anovaFor sf df (fun r => r.engagement_score))]

def exChDf : List ChRecord :=
  [{ channel := "Google Ads", conversion_rate := 9/10, roi := 2,
     acquisition_cost := 1, engagement_score := 9, engagement_rate := 9/10 },
   { channel := "Google Ads", conversion_rate := 8/10, roi := 3,
     acquisition_cost := 2, engagement_score := 8, engagement_rate := 8/10 },
   { channel := "YouTube", conversion_rate := 1/10, roi := 1,
     acquisition_cost := 3, engagement_score := 1, engagement_rate := 1/10 },
   { channel := "YouTube", conversion_rate := 2/10, roi := 0,
     acquisition_cost := 4, engagement_score := 2, engagement_rate := 2/10 }]

/-! ### SegmentEngine (src/src/analysis/segment_analysis.py, SegmentAnalyzer) -/

structure SegRecord where
  campaign_id : String
  target_audience : String
  dateSec : ℤ
  conversion_rate : ℚ
  roi : ℚ
  engagement_score : ℚ
  engagement_rate : ℚ
  acquisition_cost : ℚ
deriving DecidableEq

/-! #### RFM metrics (calculate_rfm_metrics, lines 27-50)

`Date` cells are modelled as timestamps in seconds (`dateSec`); the
wall-clock instant `pd.Timestamp.now()` the source reads at call time is
made an explicit parameter `now`, so the output is a function of the pair
(dataset, invocation instant).  `Timedelta.days` is floor division of the
elapsed seconds by 86400.  pandas `groupby` sorts the group keys; key
order does not matter to any property proved here, so first-appearance
order is used. -/

def audienceKeys (df : List SegRecord) : List String :=
  dedupFirstStr [] (df.map (fun r => r.target_audience))

def audienceRows (df : List SegRecord) (a : String) : List SegRecord :=
  df.filter (fun r => r.target_audience = a)

def maxDateSec : List ℤ → ℤ
  | [] => 0
  | x :: xs => xs.foldl max x

structure RfmRow where
  recency_days : ℤ
  campaign_frequency : Nat
  total_spend : ℚ
  avg_spend_per_campaign : ℚ
deriving DecidableEq

/-- One audience group's RFM aggregate: recency = whole days from `now`
back to the group's most recent date; frequency = record count; monetary =
cost sum, rounded to 2 decimals like the source's `.round(2)`; average
spend = rounded total over frequency, rounded again. -/
def rfmRow (now : ℤ) (df : List SegRecord) (a : String) : RfmRow :=
  { recency_days :=
      Int.fdiv (now - maxDateSec ((audienceRows df a).map (fun r => r.dateSec))) 86400,
    campaign_frequency := (audienceRows df a).length,
    total_spend := roundTo 2 (((audienceRows df a).map (fun r => r.acquisition_cost)).sum),
    avg_spend_per_campaign :=
      roundTo 2 (roundTo 2 (((audienceRows df a).map (fun r => r.acquisition_cost)).sum)
        / ((audienceRows df a).length : ℚ)) }

def calculate_rfm_metrics (now : ℤ) (df : List SegRecord) : List (String × RfmRow) :=
  (audienceKeys df).map (fun a => (a, rfmRow now df a))

def exSegDf : List SegRecord :=
  [{ campaign_id := "C1", target_audience := "A", dateSec := 0,
     conversion_rate := 1/2, roi := 1, engagement_score := 5,
     engagement_rate := 1/10, acquisition_cost := 10 }]

/-! #### Clustering (perform_cluster_analysis, lines 52-87)

`StandardScaler().fit_transform` subtracts the per-feature mean and divides
by the per-feature standard deviation (population variance; a zero-variance
feature keeps scale 1).  `KMeans(n_clusters, random_state=42).fit_predict`
is Lloyd's algorithm: assign each point to the nearest centroid by squared
Euclidean distance with ties to the lowest index, recompute centroids as
coordinate-wise means, iterate to a fixed point or the iteration cap (300).
Both of those operations commute with the per-feature linear scaling, so
the scaled-space run is represented EXACTLY in rationals by centering the
raw features and weighting each coordinate of the squared distance by
1/variance — no irrational square root is needed.  The seeded centroid
initialization (numpy RNG in the library) is modelled by a deterministic
congruential generator choosing initial centroids among the points; the
properties proved do not depend on which deterministic choice it makes.
sklearn relocates empty clusters; that is modelled by keeping the previous
centroid (no claim depends on the policy). -/

def featuresOf (r : SegRecord) : List ℚ :=
  [r.conversion_rate, r.roi, r.engagement_score, r.engagement_rate]

def colVals (pts : List (List ℚ)) (j : Nat) : List ℚ :=
  pts.map (fun p => p.getD j 0)

def colMean (pts : List (List ℚ)) (j : Nat) : ℚ := qmean (colVals pts j)

def colVar (pts : List (List ℚ)) (j : Nat) : ℚ :=
  qmean ((colVals pts j).map (fun x => (x - colMean pts j)^2))

def scaleWeights (pts : List (List ℚ)) : List ℚ :=
  (List.range 4).map (fun j => if colVar pts j = 0 then 1 else 1 / colVar pts j)

def centered (pts : List (List ℚ)) : List (List ℚ) :=
  pts.map (fun p => (List.range 4).map (fun j => p.getD j 0 - colMean pts j))

def dist2 (w p q : List ℚ) : ℚ :=
  (List.zipWith (fun wj sq => wj * sq) w (List.zipWith (fun a b => (a - b)^2) p q)).sum

def argminGo (f : List ℚ → ℚ) (bestIdx : Nat) (bestVal : ℚ) (i : Nat) :
    List (List ℚ) → Nat
  | [] => bestIdx
  | c :: cs =>
    if f c < bestVal then argminGo f i (f c) (i + 1) cs
    else argminGo f bestIdx bestVal (i + 1) cs

/-- Models `np.argmin` of the distances to the centroids: lowest index on ties. -/
def assign (w : List ℚ) (cents : List (List ℚ)) (p : List ℚ) : Nat :=
  match cents with
  | [] => 0
  | c :: cs => argminGo (fun c2 => dist2 w p c2) 0 (dist2 w p c) 1 cs

def lcg (s : Nat) : Nat := (1103515245 * s + 12345) % 2147483648

def initCentroids (k seed : Nat) (pts : List (List ℚ)) : List (List ℚ) :=
  (List.range k).map (fun i => pts.getD ((lcg^[i + 1]) seed % pts.length) (List.replicate 4 0))

def meanPoint (l : List (List ℚ)) : List ℚ :=
  (List.range 4).map (fun j => qmean (colVals l j))

def kstep (k : Nat) (w : List ℚ) (pts : List (List ℚ)) (cents : List (List ℚ)) :
    List (List ℚ) :=
  (List.range k).map (fun j =>
    if pts.filter (fun p => assign w cents p = j) = [] then
      cents.getD j (List.replicate 4 0)
    else meanPoint (pts.filter (fun p => assign w cents p = j)))

def lloyd (k : Nat) (w : List ℚ) (pts : List (List ℚ)) :
    Nat → List (List ℚ) → List (List ℚ)
  | 0, cents => cents
  | fuel + 1, cents =>
    if kstep k w pts cents = cents then cents
    else lloyd k w pts fuel (kstep k w pts cents)

/-- The `Cluster` column `kmeans.fit_predict(features_scaled)` assigns to
the records of `df`, with the fixed seed 42 of the source. -/
def perform_cluster_labels (k : Nat) (df : List SegRecord) : List Nat :=
  (centered (df.map featuresOf)).map
    (assign (scaleWeights (df.map featuresOf))
      (lloyd k (scaleWeights (df.map featuresOf)) (centered (df.map featuresOf)) 300
        (initCentroids k 42 (centered (df.map featuresOf)))))

structure ClusterStat where
  size : Nat
  avg_conversion_rate : ℚ
  avg_roi : ℚ
  avg_acquisition_cost : ℚ
  avg_engagement_score : ℚ
  avg_engagement_rate : ℚ
deriving DecidableEq

/-- cluster_stats (lines 74-85): `for i in range(n_clusters)` — one entry
per requested cluster index, keyed 0..k-1. -/
def clusterStats (k : Nat) (df : List SegRecord) (labels : List Nat) :
    List (Nat × ClusterStat) :=
  (List.range k).map (fun i =>
    (i, { size := (((df.zip labels).filter (fun pl => pl.2 = i)).map (fun pl => pl.1)).length,
          avg_conversion_rate := qmean ((((df.zip labels).filter (fun pl => pl.2 = i)).map (fun pl => pl.1)).map (fun r => r.conversion_rate)),
          avg_roi := qmean ((((df.zip labels).filter (fun pl => pl.2 = i)).map (fun pl => pl.1)).map (fun r => r.roi)),
          avg_acquisition_cost := qmean ((((df.zip labels).filter (fun pl => pl.2 = i)).map (fun pl => pl.1)).map (fun r => r.acquisition_cost)),
          avg_engagement_score := qmean ((((df.zip labels).filter (fun pl => pl.2 = i)).map (fun pl => pl.1)).map (fun r => r.engagement_score)),
          avg_engagement_rate := qmean ((((df.zip labels).filter (fun pl => pl.2 = i)).map (fun pl => pl.1)).map (fun r => r.engagement_rate)) }))

def perform_cluster_analysis (df : List SegRecord) (k : Nat) :
    List (SegRecord × Nat) × List (Nat × ClusterStat) :=
  (df.zip (perform_cluster_labels k df),
   clusterStats k df (perform_cluster_labels k df))

def exSegDf2 : List SegRecord :=
  [{ campaign_id := "C1", target_audience := "A", dateSec := 0,
     conversion_rate := 9/10, roi := 2, engagement_score := 9,
     engagement_rate := 9/10, acquisition_cost := 1 },
   { campaign_id := "C2", target_audience := "B", dateSec := 86400,
     conversion_rate := 1/10, roi := 1, engagement_score := 1,
     engagement_rate := 1/10, acquisition_cost := 3 }]

theorem dateLe_refl (a : Date) : dateLe a a := by
  unfold dateLe; omega

theorem dateLe_trans {a b c : Date} (h1 : dateLe a b) (h2 : dateLe b c) : dateLe a c := by
  unfold dateLe at *; omega

theorem dateLe_total (a b : Date) : dateLe a b ∨ dateLe b a := by
  unfold dateLe; omega

theorem dateLe_monthIndex {a b : Date} (h : dateLe a b) :
    a.monthIndex ≤ b.monthIndex := by
  unfold dateLe at h; omega

theorem length_insertSorted (x : ℚ) (l : List ℚ) :
    (insertSorted x l).length = l.length + 1 := by
  induction l with
  | nil => rfl
  | cons y ys ih =>
    unfold insertSorted
    by_cases h : x ≤ y <;> simp [h, ih]

theorem length_sortQ (l : List ℚ) : (sortQ l).length = l.length := by
  induction l with
  | nil => rfl
  | cons x xs ih => simp [sortQ, List.foldr] at ih ⊢; rw [length_insertSorted, ih]

theorem median_isSome {l : List ℚ} (h : l ≠ []) : ∃ m, median l = some m := by
  unfold median
  have hn : (sortQ l).length ≠ 0 := by
    rw [length_sortQ]; simpa using h
  simp only [hn, if_false]
  by_cases hp : (sortQ l).length % 2 = 1 <;> simp [hp]

/-- C3.  The Loader is pass/fail: either some row has an uncoercible cell
and `load_data` yields no dataset at all, or every row coerces and the
returned dataset contains the coercion of every input row, with no rows
dropped.  No partial dataset exists. -/
theorem loader_all_or_nothing (rows : List RawRow) :
    (load_data rows = none ∧ ∃ r ∈ rows, coerceRow r = none) ∨
    (∃ d, load_data rows = some d ∧ d.length = rows.length ∧
      ∀ r ∈ rows, ∃ c, coerceRow r = some c ∧ c ∈ d) := by
  unfold load_data
  induction rows with
  | nil => exact Or.inr ⟨[], rfl, rfl, by simp⟩
  | cons r rs ih =>
    cases hr : coerceRow r with
    | none =>
      left
      constructor
      · unfold coerceAll; rw [hr]
      · exact ⟨r, List.mem_cons_self r rs, hr⟩
    | some c =>
      rcases ih with ⟨hnone, x, hx, hxn⟩ | ⟨d, hd, hlen, hall⟩
      · left
        constructor
        · unfold coerceAll; rw [hr, hnone]
        · exact ⟨x, List.mem_cons_of_mem r hx, hxn⟩
      · right
        refine ⟨c :: d, ?_, by simp [hlen], ?_⟩
        · unfold coerceAll; rw [hr, hd]
        · intro a ha
          rcases List.mem_cons.mp ha with rfl | ha
          · exact ⟨c, hr, List.mem_cons_self c d⟩
          · obtain ⟨b, hb1, hb2⟩ := hall a ha
            exact ⟨b, hb1, List.mem_cons_of_mem c hb2⟩

/-- C7.  Currency parsing: `"$16,174.00"` parses to exactly 16174. -/
theorem currency_parse_roundtrip : parseCurrency "$16,174.00" = some (16174 : ℚ) := by
  decide

theorem forall_mem_map {α β : Type} {f : α → β} {l : List α} {P : β → Prop}
    (h : ∀ a ∈ l, P (f a)) : ∀ b ∈ l.map f, P b := by
  intro b hb
  rcases List.mem_map.mp hb with ⟨a, ha, rfl⟩
  exact h a ha

theorem filterMap_map_of_eq {α β : Type} {f : α → α} {g : α → Option β}
    (l : List α) (h : ∀ a ∈ l, g (f a) = g a) :
    (l.map f).filterMap g = l.filterMap g := by
  induction l with
  | nil => rfl
  | cons a l ih =>
    simp only [List.map_cons, List.filterMap_cons, h a (List.mem_cons_self a l)]
    rw [ih (fun b hb => h b (List.mem_cons_of_mem a hb))]

theorem map_map_of_eq {α β : Type} {f : α → α} {g : α → β}
    (l : List α) (h : ∀ a, g (f a) = g a) : (l.map f).map g = l.map g := by
  induction l with
  | nil => rfl
  | cons a l ih => simp only [List.map_cons, h a, ih]

/-- After the negative-value repair of a column, every present value of that
column is non-negative — provided the median the repair writes is itself
non-negative. -/
theorem nonneg_repairNeg (get : CRecord → Option ℚ) (set : Option ℚ → CRecord → CRecord)
    (hgs : ∀ v r, get (set v r) = v) (df : List CRecord)
    (hm : optNonneg (median (df.filterMap get))) :
    ∀ x ∈ repairNegCol get set df, optNonneg (get x) := by
  intro x hx
  unfold repairNegCol at hx
  by_cases hany : df.any (fun r => negCell (get r)) = true
  · rw [if_pos hany] at hx
    cases hmed : median (df.filterMap get) with
    | none =>
      rcases List.any_eq_true.mp hany with ⟨r, hr, hneg⟩
      cases hgr : get r with
      | none => rw [hgr] at hneg; simp [negCell] at hneg
      | some v =>
        have : v ∈ df.filterMap get := List.mem_filterMap.mpr ⟨r, hr, hgr⟩
        have hne : df.filterMap get ≠ [] := List.ne_nil_of_mem this
        rcases median_isSome hne with ⟨m, hm2⟩
        rw [hm2] at hmed; cases hmed
    | some m =>
      rw [hmed] at hx hm
      rcases List.mem_map.mp hx with ⟨r, hr, rfl⟩
      by_cases hneg : negCell (get r) = true
      · rw [if_pos hneg, hgs]
        exact hm
      · rw [if_neg hneg]
        cases hgr : get r with
        | none => exact trivial
        | some v =>
          rw [hgr] at hneg
          simp [negCell] at hneg
          exact hneg
  · rw [if_neg hany] at hx
    have hall := List.any_eq_false.mp (Bool.eq_false_iff.mpr hany)
    cases hgr : get x with
    | none => exact trivial
    | some v =>
      have := hall x hx
      rw [hgr] at this
      simp [negCell] at this
      exact this

/-- Same soundness statement for the conversion-rate clamp. -/
theorem inUnit_repairConv (df : List CRecord)
    (hm : optInUnit (median (df.filterMap (fun r => r.conversion_rate)))) :
    ∀ x ∈ repairConvCol df, optInUnit x.conversion_rate := by
  intro x hx
  unfold repairConvCol at hx
  by_cases hany : df.any (fun r => badConvCell r.conversion_rate) = true
  · rw [if_pos hany] at hx
    cases hmed : median (df.filterMap (fun r => r.conversion_rate)) with
    | none =>
      rcases List.any_eq_true.mp hany with ⟨r, hr, hbad⟩
      cases hgr : r.conversion_rate with
      | none => rw [hgr] at hbad; simp [badConvCell] at hbad
      | some v =>
        have : v ∈ df.filterMap (fun r => r.conversion_rate) :=
          List.mem_filterMap.mpr ⟨r, hr, hgr⟩
        have hne : df.filterMap (fun r => r.conversion_rate) ≠ [] := List.ne_nil_of_mem this
        rcases median_isSome hne with ⟨m, hm2⟩
        rw [hm2] at hmed; cases hmed
    | some m =>
      rw [hmed] at hx hm
      rcases List.mem_map.mp hx with ⟨r, hr, rfl⟩
      by_cases hbad : badConvCell r.conversion_rate = true
      · rw [if_pos hbad]
        exact hm
      · rw [if_neg hbad]
        cases hgr : r.conversion_rate with
        | none => exact trivial
        | some v =>
          rw [hgr] at hbad
          simp [badConvCell] at hbad
          exact hbad
  · rw [if_neg hany] at hx
    have hall := List.any_eq_false.mp (Bool.eq_false_iff.mpr hany)
    cases hgr : x.conversion_rate with
    | none => exact trivial
    | some v =>
      have := hall x hx
      rw [hgr] at this
      simp [badConvCell] at this
      exact this

/-- A repair of one column leaves every other column's cells unchanged,
record by record. -/
theorem pres_repairNeg (get : CRecord → Option ℚ) (set : Option ℚ → CRecord → CRecord)
    {β : Type} (get2 : CRecord → β) (hpres : ∀ v r, get2 (set v r) = get2 r)
    (P : β → Prop) (df : List CRecord) (hP : ∀ r ∈ df, P (get2 r)) :
    ∀ x ∈ repairNegCol get set df, P (get2 x) := by
  intro x hx
  unfold repairNegCol at hx
  by_cases hany : df.any (fun r => negCell (get r)) = true
  · rw [if_pos hany] at hx
    cases hmed : median (df.filterMap get) with
    | none => rw [hmed] at hx; exact hP x hx
    | some m =>
      rw [hmed] at hx
      rcases List.mem_map.mp hx with ⟨r, hr, rfl⟩
      by_cases hneg : negCell (get r) = true
      · rw [if_pos hneg, hpres]; exact hP r hr
      · rw [if_neg hneg]; exact hP r hr
  · rw [if_neg hany] at hx
    exact hP x hx

theorem pres_repairConv {β : Type} (get2 : CRecord → β)
    (hpres : ∀ v r, get2 { r with conversion_rate := v } = get2 r)
    (P : β → Prop) (df : List CRecord) (hP : ∀ r ∈ df, P (get2 r)) :
    ∀ x ∈ repairConvCol df, P (get2 x) := by
  intro x hx
  unfold repairConvCol at hx
  by_cases hany : df.any (fun r => badConvCell r.conversion_rate) = true
  · rw [if_pos hany] at hx
    cases hmed : median (df.filterMap (fun r => r.conversion_rate)) with
    | none => rw [hmed] at hx; exact hP x hx
    | some m =>
      rw [hmed] at hx
      rcases List.mem_map.mp hx with ⟨r, hr, rfl⟩
      by_cases hbad : badConvCell r.conversion_rate = true
      · rw [if_pos hbad, hpres]; exact hP r hr
      · rw [if_neg hbad]; exact hP r hr
  · rw [if_neg hany] at hx
    exact hP x hx

/-- A repair of one column does not change the list of present values of
any other column (so later medians agree with earlier ones). -/
theorem filterMap_repairNeg (get : CRecord → Option ℚ) (set : Option ℚ → CRecord → CRecord)
    {β : Type} (get2 : CRecord → Option β) (hpres : ∀ v r, get2 (set v r) = get2 r)
    (df : List CRecord) :
    (repairNegCol get set df).filterMap get2 = df.filterMap get2 := by
  unfold repairNegCol
  by_cases hany : df.any (fun r => negCell (get r)) = true
  · rw [if_pos hany]
    cases hmed : median (df.filterMap get) with
    | none => rfl
    | some m =>
      apply filterMap_map_of_eq
      intro r _
      by_cases hneg : negCell (get r) = true
      · rw [if_pos hneg, hpres]
      · rw [if_neg hneg]
  · rw [if_neg hany]

/-- Null-filling one column leaves every other column unchanged. -/
theorem pres_fillNumCol (get : CRecord → Option ℚ) (set : Option ℚ → CRecord → CRecord)
    {β : Type} (get2 : CRecord → β) (hpres : ∀ v r, get2 (set v r) = get2 r)
    (P : β → Prop) (df : List CRecord) (hP : ∀ r ∈ df, P (get2 r)) :
    ∀ x ∈ fillNumCol get set df, P (get2 x) := by
  intro x hx
  unfold fillNumCol at hx
  cases hmed : median (df.filterMap get) with
  | none => rw [hmed] at hx; exact hP x hx
  | some m =>
    rw [hmed] at hx
    rcases List.mem_map.mp hx with ⟨r, hr, rfl⟩
    rw [hpres]; exact hP r hr

theorem pres_fillCatCol (get : CRecord → Option String) (set : Option String → CRecord → CRecord)
    {β : Type} (get2 : CRecord → β) (hpres : ∀ v r, get2 (set v r) = get2 r)
    (P : β → Prop) (df : List CRecord) (hP : ∀ r ∈ df, P (get2 r)) :
    ∀ x ∈ fillCatCol get set df, P (get2 x) := by
  intro x hx
  rcases List.mem_map.mp hx with ⟨r, hr, rfl⟩
  rw [hpres]; exact hP r hr

theorem pres_normalize {β : Type} (get2 : CRecord → β)
    (hpres : ∀ r, get2 { r with campaign_type := r.campaign_type.map titleCase,
                                channel_used := r.channel_used.map titleCase,
                                location := r.location.map titleCase,
                                customer_segment := r.customer_segment.map titleCase } = get2 r)
    (P : β → Prop) (df : List CRecord) (hP : ∀ r ∈ df, P (get2 r)) :
    ∀ x ∈ normalize_categorical_values df, P (get2 x) := by
  intro x hx
  rcases List.mem_map.mp hx with ⟨r, hr, rfl⟩
  rw [hpres]; exact hP r hr

theorem mem_dedupByKey : ∀ (seen : List (Option String)) (df : List CRecord),
    ∀ x ∈ dedupByKey seen df, x ∈ df := by
  intro seen df
  induction df generalizing seen with
  | nil => intro x hx; cases hx
  | cons r rs ih =>
    intro x hx
    unfold dedupByKey at hx
    by_cases hmem : r.campaign_id ∈ seen
    · rw [if_pos hmem] at hx
      exact List.mem_cons_of_mem r (ih seen x hx)
    · rw [if_neg hmem] at hx
      rcases List.mem_cons.mp hx with heq | hx
      · exact heq ▸ List.mem_cons_self r rs
      · exact List.mem_cons_of_mem r (ih _ x hx)

theorem length_fillNumCol (get : CRecord → Option ℚ) (set : Option ℚ → CRecord → CRecord)
    (df : List CRecord) : (fillNumCol get set df).length = df.length := by
  unfold fillNumCol
  cases median (df.filterMap get) <;> simp

theorem length_fillCatCol (get : CRecord → Option String) (set : Option String → CRecord → CRecord)
    (df : List CRecord) : (fillCatCol get set df).length = df.length := by
  unfold fillCatCol; simp

theorem length_handle_missing (df : List CRecord) :
    (handle_missing_values df).length = df.length := by
  unfold handle_missing_values
  simp only [length_fillNumCol, length_fillCatCol]

theorem length_normalize (df : List CRecord) :
    (normalize_categorical_values df).length = df.length := by
  unfold normalize_categorical_values; simp

theorem length_repairNegCol (get : CRecord → Option ℚ) (set : Option ℚ → CRecord → CRecord)
    (df : List CRecord) : (repairNegCol get set df).length = df.length := by
  unfold repairNegCol
  by_cases hany : df.any (fun r => negCell (get r)) = true
  · rw [if_pos hany]
    cases median (df.filterMap get) <;> simp
  · rw [if_neg hany]

theorem length_repairConvCol (df : List CRecord) :
    (repairConvCol df).length = df.length := by
  unfold repairConvCol
  by_cases hany : df.any (fun r => badConvCell r.conversion_rate) = true
  · rw [if_pos hany]
    cases median (df.filterMap (fun r => r.conversion_rate)) <;> simp
  · rw [if_neg hany]

theorem length_validate (df : List CRecord) :
    (validate_numeric_ranges df).length = df.length := by
  unfold validate_numeric_ranges
  rw [length_repairConvCol, length_repairNegCol, length_repairNegCol, length_repairNegCol]

theorem length_create_derived (df : List CRecord) :
    (create_derived_features df).length = df.length := by
  unfold create_derived_features; simp

theorem keysOf_fillNumCol (get : CRecord → Option ℚ) (set : Option ℚ → CRecord → CRecord)
    (hset : ∀ v r, (set v r).campaign_id = r.campaign_id) (df : List CRecord) :
    keysOf (fillNumCol get set df) = keysOf df := by
  unfold fillNumCol
  cases median (df.filterMap get) with
  | none => rfl
  | some m => exact map_map_of_eq df (fun r => hset _ r)

theorem keysOf_fillCatCol (get : CRecord → Option String) (set : Option String → CRecord → CRecord)
    (hset : ∀ v r, (set v r).campaign_id = r.campaign_id) (df : List CRecord) :
    keysOf (fillCatCol get set df) = keysOf df :=
  map_map_of_eq df (fun r => hset _ r)

theorem keysOf_handle_missing (df : List CRecord) :
    keysOf (handle_missing_values df) = keysOf df := by
  unfold handle_missing_values
  refine (keysOf_fillCatCol _ _ ?_ _).trans ?_
  · intro v r; rfl
  refine (keysOf_fillCatCol _ _ ?_ _).trans ?_
  · intro v r; rfl
  refine (keysOf_fillCatCol _ _ ?_ _).trans ?_
  · intro v r; rfl
  refine (keysOf_fillCatCol _ _ ?_ _).trans ?_
  · intro v r; rfl
  refine (keysOf_fillCatCol _ _ ?_ _).trans ?_
  · intro v r; rfl
  refine (keysOf_fillCatCol _ _ ?_ _).trans ?_
  · intro v r; rfl
  refine (keysOf_fillNumCol _ _ ?_ _).trans ?_
  · intro v r; rfl
  refine (keysOf_fillNumCol _ _ ?_ _).trans ?_
  · intro v r; rfl
  refine (keysOf_fillNumCol _ _ ?_ _).trans ?_
  · intro v r; rfl
  refine (keysOf_fillNumCol _ _ ?_ _).trans ?_
  · intro v r; rfl
  refine (keysOf_fillNumCol _ _ ?_ _).trans ?_
  · intro v r; rfl
  rfl

theorem keysOf_normalize (df : List CRecord) :
    keysOf (normalize_categorical_values df) = keysOf df :=
  map_map_of_eq df (fun r => rfl)

theorem keysOf_repairNegCol (get : CRecord → Option ℚ) (set : Option ℚ → CRecord → CRecord)
    (hset : ∀ v r, (set v r).campaign_id = r.campaign_id) (df : List CRecord) :
    keysOf (repairNegCol get set df) = keysOf df := by
  unfold repairNegCol
  by_cases hany : df.any (fun r => negCell (get r)) = true
  · rw [if_pos hany]
    cases median (df.filterMap get) with
    | none => rfl
    | some m =>
      apply map_map_of_eq
      intro r
      by_cases hneg : negCell (get r) = true
      · rw [if_pos hneg, hset]
      · rw [if_neg hneg]
  · rw [if_neg hany]

theorem keysOf_repairConvCol (df : List CRecord) :
    keysOf (repairConvCol df) = keysOf df := by
  unfold repairConvCol
  by_cases hany : df.any (fun r => badConvCell r.conversion_rate) = true
  · rw [if_pos hany]
    cases median (df.filterMap (fun r => r.conversion_rate)) with
    | none => rfl
    | some m =>
      apply map_map_of_eq
      intro r
      by_cases hbad : badConvCell r.conversion_rate = true
      · rw [if_pos hbad]
      · rw [if_neg hbad]
  · rw [if_neg hany]

theorem keysOf_validate (df : List CRecord) :
    keysOf (validate_numeric_ranges df) = keysOf df := by
  unfold validate_numeric_ranges
  refine (keysOf_repairConvCol _).trans ?_
  refine (keysOf_repairNegCol _ _ ?_ _).trans ?_
  · intro v r; rfl
  refine (keysOf_repairNegCol _ _ ?_ _).trans ?_
  · intro v r; rfl
  refine (keysOf_repairNegCol _ _ ?_ _).trans ?_
  · intro v r; rfl
  rfl

/-- Deduplication leaves pairwise-distinct keys, none of them previously seen. -/
theorem dedupByKey_nodup : ∀ (df : List CRecord) (seen : List (Option String)),
    (keysOf (dedupByKey seen df)).Nodup ∧
      ∀ k ∈ keysOf (dedupByKey seen df), k ∉ seen := by
  intro df
  induction df with
  | nil => intro seen; constructor <;> simp [dedupByKey, keysOf]
  | cons r rs ih =>
    intro seen
    unfold dedupByKey
    by_cases hmem : r.campaign_id ∈ seen
    · rw [if_pos hmem]; exact ih seen
    · rw [if_neg hmem]
      rcases ih (r.campaign_id :: seen) with ⟨hnd, hout⟩
      constructor
      · refine List.Nodup.cons ?_ hnd
        intro hk
        exact (hout _ hk) (List.mem_cons_self _ _)
      · intro k hk
        rcases List.mem_cons.mp hk with heq | hk
        · exact heq ▸ hmem
        · intro hks
          exact (hout _ hk) (List.mem_cons_of_mem _ hks)

/-- On a record set whose keys are already pairwise distinct (and disjoint
from `seen`), deduplication is the identity. -/
theorem dedupByKey_eq_self : ∀ (df : List CRecord) (seen : List (Option String)),
    (keysOf df).Nodup → (∀ k ∈ keysOf df, k ∉ seen) → dedupByKey seen df = df := by
  intro df
  induction df with
  | nil => intro seen _ _; rfl
  | cons r rs ih =>
    intro seen hnd hdisj
    unfold dedupByKey
    have hnd2 : r.campaign_id ∉ keysOf rs ∧ (keysOf rs).Nodup := List.nodup_cons.mp hnd
    have hrk : r.campaign_id ∉ seen := hdisj _ (List.mem_cons_self _ _)
    rw [if_neg hrk]
    congr 1
    apply ih
    · exact hnd2.2
    · intro k hk hks
      rcases List.mem_cons.mp hks with heq | hks2
      · exact hnd2.1 (heq ▸ hk)
      · exact (hdisj k (List.mem_cons_of_mem _ hk)) hks2

/-- Forgetting the derived columns recovers exactly the Cleaner-stage record:
re-running the Cleaner on its own output operates on these records. -/
theorem toC_create (df : List CRecord) :
    (create_derived_features df).map CleanedRecord.toCRecord = df := by
  induction df with
  | nil => rfl
  | cons r rs ih =>
    simp only [create_derived_features, List.map_cons, List.map_map] at ih ⊢
    rw [ih]

/-- C4.  Running the Cleaner a second time on a record set it has already
cleaned removes zero rows: the second run's deduplication finds the key set
already pairwise distinct, and no other step drops records, so the second
summary reports `rows_removed = 0` (equivalently, final_count = initial_count). -/
theorem cleaner_dedup_idempotent (df : List CRecord) :
    (clean_data ((clean_data df).1.map CleanedRecord.toCRecord)).2.rows_removed = 0 := by
  have hinput : (clean_data df).1.map CleanedRecord.toCRecord
      = validate_numeric_ranges (preRepair df) := by
    simp only [clean_data, preRepair]
    exact toC_create _
  rw [hinput]
  have hnodup : (keysOf (validate_numeric_ranges (preRepair df))).Nodup := by
    have h1 : keysOf (validate_numeric_ranges (preRepair df))
        = keysOf (remove_duplicates (handle_missing_values df)) :=
      (keysOf_validate _).trans (keysOf_normalize _)
    rw [h1]
    exact (dedupByKey_nodup _ []).1
  have hded : remove_duplicates
      (handle_missing_values (validate_numeric_ranges (preRepair df)))
      = handle_missing_values (validate_numeric_ranges (preRepair df)) := by
    apply dedupByKey_eq_self
    · rw [keysOf_handle_missing]; exact hnodup
    · intro k _ hk; exact (List.not_mem_nil k) hk
  have hrr : (clean_data (validate_numeric_ranges (preRepair df))).2.rows_removed
      = ((validate_numeric_ranges (preRepair df)).length : ℤ)
        - ((create_derived_features (validate_numeric_ranges (normalize_categorical_values
            (remove_duplicates (handle_missing_values (validate_numeric_ranges (preRepair df))))))).length : ℤ) := by
    simp only [clean_data]
  rw [hrr, hded]
  simp only [length_create_derived, length_validate, length_normalize, length_handle_missing]
  omega

set_option linter.constructorNameAsVariable false in
/-- C1, amended.  After the Cleaner runs, every present clicks /
impressions / engagement_score value is non-negative and every present
conversion_rate lies in [0, 1] — PROVIDED the repair medians (each computed
over the column as it stands when the repair fires, invalid values included)
are themselves in range; and every acquisition_cost is non-negative PROVIDED
all input costs were, since validate_numeric_ranges applies no sign check to
Acquisition_Cost at all.  Without those provisos the claim is false
(`cleaner_range_invariant_fails`). -/
theorem cleaner_range_repair (df : List CRecord)
    (hcl : optNonneg (median ((preRepair df).filterMap (fun r => r.clicks))))
    (him : optNonneg (median ((preRepair df).filterMap (fun r => r.impressions))))
    (hes : optNonneg (median ((preRepair df).filterMap (fun r => r.engagement_score))))
    (hcv : optInUnit (median ((preRepair df).filterMap (fun r => r.conversion_rate))))
    (hac : ∀ r ∈ df, optNonneg r.acquisition_cost) :
    ∀ c ∈ (clean_data df).1,
      optNonneg c.clicks ∧ optNonneg c.impressions ∧ optNonneg c.engagement_score ∧
      optInUnit c.conversion_rate ∧ optNonneg c.acquisition_cost := by
  intro c hc
  have key : (clean_data df).1 = create_derived_features
      (repairConvCol
        (repairNegCol (fun r => r.engagement_score) (fun v r => { r with engagement_score := v })
          (repairNegCol (fun r => r.impressions) (fun v r => { r with impressions := v })
            (repairNegCol (fun r => r.clicks) (fun v r => { r with clicks := v })
              (preRepair df))))) := by
    simp only [clean_data, preRepair, validate_numeric_ranges]
  rw [key] at hc
  obtain ⟨l, hl⟩ : ∃ l, preRepair df = l := ⟨_, rfl⟩
  rw [hl] at hc hcl him hes hcv
  rcases List.mem_map.mp hc with ⟨r, hr, rfl⟩
  have s1 := nonneg_repairNeg (fun r => r.clicks) (fun v r => { r with clicks := v })
    (fun v r => rfl) l hcl
  have s2 := pres_repairNeg (fun r => r.impressions) (fun v r => { r with impressions := v })
    (fun r => r.clicks) (fun v r => rfl) optNonneg _ s1
  have s3 := pres_repairNeg (fun r => r.engagement_score) (fun v r => { r with engagement_score := v })
    (fun r => r.clicks) (fun v r => rfl) optNonneg _ s2
  have s4 := pres_repairConv (fun r => r.clicks) (fun v r => rfl) optNonneg _ s3
  have t0 := filterMap_repairNeg (fun r => r.clicks) (fun v r => { r with clicks := v })
    (fun r => r.impressions) (fun v r => rfl) l
  have him2 : optNonneg (median ((repairNegCol (fun r => r.clicks)
      (fun v r => { r with clicks := v }) l).filterMap (fun r => r.impressions))) := by
    rw [t0]; exact him
  have t1 := nonneg_repairNeg (fun r => r.impressions) (fun v r => { r with impressions := v })
    (fun v r => rfl) _ him2
  have t2 := pres_repairNeg (fun r => r.engagement_score) (fun v r => { r with engagement_score := v })
    (fun r => r.impressions) (fun v r => rfl) optNonneg _ t1
  have t3 := pres_repairConv (fun r => r.impressions) (fun v r => rfl) optNonneg _ t2
  have u0 := filterMap_repairNeg (fun r => r.clicks) (fun v r => { r with clicks := v })
    (fun r => r.engagement_score) (fun v r => rfl) l
  have u1 := filterMap_repairNeg (fun r => r.impressions) (fun v r => { r with impressions := v })
    (fun r => r.engagement_score) (fun v r => rfl)
    (repairNegCol (fun r => r.clicks) (fun v r => { r with clicks := v }) l)
  have hes2 : optNonneg (median ((repairNegCol (fun r => r.impressions)
      (fun v r => { r with impressions := v })
      (repairNegCol (fun r => r.clicks) (fun v r => { r with clicks := v })
        l)).filterMap (fun r => r.engagement_score))) := by
    rw [u1, u0]; exact hes
  have u2 := nonneg_repairNeg (fun r => r.engagement_score) (fun v r => { r with engagement_score := v })
    (fun v r => rfl) _ hes2
  have u3 := pres_repairConv (fun r => r.engagement_score) (fun v r => rfl) optNonneg _ u2
  have v0 := filterMap_repairNeg (fun r => r.clicks) (fun v r => { r with clicks := v })
    (fun r => r.conversion_rate) (fun v r => rfl) l
  have v1 := filterMap_repairNeg (fun r => r.impressions) (fun v r => { r with impressions := v })
    (fun r => r.conversion_rate) (fun v r => rfl)
    (repairNegCol (fun r => r.clicks) (fun v r => { r with clicks := v }) l)
  have v2 := filterMap_repairNeg (fun r => r.engagement_score) (fun v r => { r with engagement_score := v })
    (fun r => r.conversion_rate) (fun v r => rfl)
    (repairNegCol (fun r => r.impressions) (fun v r => { r with impressions := v })
      (repairNegCol (fun r => r.clicks) (fun v r => { r with clicks := v }) l))
  have hcv2 : optInUnit (median ((repairNegCol (fun r => r.engagement_score)
      (fun v r => { r with engagement_score := v })
      (repairNegCol (fun r => r.impressions) (fun v r => { r with impressions := v })
        (repairNegCol (fun r => r.clicks) (fun v r => { r with clicks := v })
          l))).filterMap (fun r => r.conversion_rate))) := by
    rw [v2, v1, v0]; exact hcv
  have v3 := inUnit_repairConv _ hcv2
  have a1 := pres_fillNumCol (fun r => r.clicks) (fun v r => { r with clicks := v })
    (fun r => r.acquisition_cost) (fun v r => rfl) optNonneg df hac
  have a2 := pres_fillNumCol (fun r => r.impressions) (fun v r => { r with impressions := v })
    (fun r => r.acquisition_cost) (fun v r => rfl) optNonneg _ a1
  have a3 := pres_fillNumCol (fun r => r.engagement_score) (fun v r => { r with engagement_score := v })
    (fun r => r.acquisition_cost) (fun v r => rfl) optNonneg _ a2
  have a4 := pres_fillNumCol (fun r => r.conversion_rate) (fun v r => { r with conversion_rate := v })
    (fun r => r.acquisition_cost) (fun v r => rfl) optNonneg _ a3
  have a5 := pres_fillNumCol (fun r => r.roi) (fun v r => { r with roi := v })
    (fun r => r.acquisition_cost) (fun v r => rfl) optNonneg _ a4
  have a6 := pres_fillCatCol (fun r => r.campaign_type) (fun v r => { r with campaign_type := v })
    (fun r => r.acquisition_cost) (fun v r => rfl) optNonneg _ a5
  have a7 := pres_fillCatCol (fun r => r.channel_used) (fun v r => { r with channel_used := v })
    (fun r => r.acquisition_cost) (fun v r => rfl) optNonneg _ a6
  have a8 := pres_fillCatCol (fun r => r.target_audience) (fun v r => { r with target_audience := v })
    (fun r => r.acquisition_cost) (fun v r => rfl) optNonneg _ a7
  have a9 := pres_fillCatCol (fun r => r.location) (fun v r => { r with location := v })
    (fun r => r.acquisition_cost) (fun v r => rfl) optNonneg _ a8
  have a10 := pres_fillCatCol (fun r => r.language) (fun v r => { r with language := v })
    (fun r => r.acquisition_cost) (fun v r => rfl) optNonneg _ a9
  have a11 := pres_fillCatCol (fun r => r.customer_segment) (fun v r => { r with customer_segment := v })
    (fun r => r.acquisition_cost) (fun v r => rfl) optNonneg _ a10
  have b1 : ∀ x ∈ remove_duplicates (handle_missing_values df), optNonneg x.acquisition_cost :=
    fun x hx => a11 x (mem_dedupByKey [] _ x hx)
  have b2 := pres_normalize (fun r => r.acquisition_cost) (fun r => rfl) optNonneg _ b1
  have b2l : ∀ x ∈ l, optNonneg x.acquisition_cost := by
    rw [← hl]; exact b2
  have b3 := pres_repairNeg (fun r => r.clicks) (fun v r => { r with clicks := v })
    (fun r => r.acquisition_cost) (fun v r => rfl) optNonneg l b2l
  have b4 := pres_repairNeg (fun r => r.impressions) (fun v r => { r with impressions := v })
    (fun r => r.acquisition_cost) (fun v r => rfl) optNonneg _ b3
  have b5 := pres_repairNeg (fun r => r.engagement_score) (fun v r => { r with engagement_score := v })
    (fun r => r.acquisition_cost) (fun v r => rfl) optNonneg _ b4
  have b6 := pres_repairConv (fun r => r.acquisition_cost) (fun v r => rfl) optNonneg _ b5
  exact ⟨s4 r hr, t3 r hr, u3 r hr, v3 r hr, b6 r hr⟩

/-- C1, counterexample.  On this one-record dataset the Cleaner outputs
a record with clicks = -3 (the clicks repair replaces the negative value by
the column median, which is itself -3) and acquisition_cost = -5 (never
range-checked), so the claimed invariant fails. -/
theorem cleaner_range_invariant_fails :
    ¬ (∀ c ∈ (clean_data [exBadRecord]).1,
        optNonneg c.clicks ∧ optNonneg c.impressions ∧ optNonneg c.engagement_score ∧
        optInUnit c.conversion_rate ∧ optNonneg c.acquisition_cost) := by
  decide

/-- Witness for `cleaner_range_repair` at a concrete dataset: the provisos
hold and the conclusion follows by the theorem. -/
theorem cleaner_range_repair_witness :
    (optNonneg (median ((preRepair [exGoodRecord]).filterMap (fun r => r.clicks))) ∧
     optNonneg (median ((preRepair [exGoodRecord]).filterMap (fun r => r.impressions))) ∧
     optNonneg (median ((preRepair [exGoodRecord]).filterMap (fun r => r.engagement_score))) ∧
     optInUnit (median ((preRepair [exGoodRecord]).filterMap (fun r => r.conversion_rate))) ∧
     (∀ r ∈ [exGoodRecord], optNonneg r.acquisition_cost)) ∧
    (∀ c ∈ (clean_data [exGoodRecord]).1,
      optNonneg c.clicks ∧ optNonneg c.impressions ∧ optNonneg c.engagement_score ∧
      optInUnit c.conversion_rate ∧ optNonneg c.acquisition_cost) :=
  ⟨⟨by decide, by decide, by decide, by decide, by decide⟩,
    cleaner_range_repair [exGoodRecord] (by decide) (by decide) (by decide) (by decide) (by decide)⟩

theorem dateMin_le_left (a b : Date) : dateLe (dateMin a b) a := by
  unfold dateMin
  by_cases h : dateLe b a
  · rw [if_pos h]; exact h
  · rw [if_neg h]; exact dateLe_refl a

theorem dateMin_le_right (a b : Date) : dateLe (dateMin a b) b := by
  unfold dateMin
  by_cases h : dateLe b a
  · rw [if_pos h]; exact dateLe_refl b
  · rw [if_neg h]
    rcases dateLe_total a b with h2 | h2
    · exact h2
    · exact absurd h2 h

theorem minDateList_le : ∀ (l : List Date) (d : Date),
    dateLe (minDateList d l) d ∧ ∀ x ∈ l, dateLe (minDateList d l) x := by
  intro l
  induction l with
  | nil => intro d; exact ⟨dateLe_refl d, by intro x hx; cases hx⟩
  | cons a l ih =>
    intro d
    have hstep : minDateList d (a :: l) = minDateList (dateMin d a) l := rfl
    rcases ih (dateMin d a) with ⟨h1, h2⟩
    refine ⟨?_, ?_⟩
    · rw [hstep]
      exact dateLe_trans h1 (dateMin_le_left d a)
    · intro x hx
      rcases List.mem_cons.mp hx with heq | hx
    
      · rw [hstep, heq]
        exact dateLe_trans h1 (dateMin_le_right d a)
      · rw [hstep]
        exact h2 x hx

/-- C8.  Every cohort-assigned record has `months_since_first ≥ 0`
(the group minimum month is at most the record's own month), and
`months_since_first = 0` holds exactly when the record's month equals its
audience group's baseline month — the records at offset 0 are the
baseline population. -/
theorem months_since_first_nonneg (df : List CampaignRow) :
    ∀ x ∈ create_cohorts df, 0 ≤ x.months_since_first ∧
      (x.months_since_first = 0 ↔ x.cohort_month = baselineMonth df x.target_audience) := by
  intro x hx
  rcases List.mem_map.mp hx with ⟨r, hr, rfl⟩
  have hdate : r.date ∈ audienceDates df r.target_audience := by
    unfold audienceDates
    exact List.mem_map.mpr ⟨r, List.mem_filter.mpr ⟨hr, by simp⟩, rfl⟩
  constructor
  · show 0 ≤ r.date.monthIndex - baselineMonth df r.target_audience
    unfold baselineMonth
    cases had : audienceDates df r.target_audience with
    | nil => rw [had] at hdate; cases hdate
    | cons d ds =>
      rw [had] at hdate
      show 0 ≤ r.date.monthIndex - (minDateList d ds).monthIndex
      have hle : dateLe (minDateList d ds) r.date := by
        rcases List.mem_cons.mp hdate with heq | hmem
        · rw [heq]; exact (minDateList_le ds d).1
        · exact (minDateList_le ds d).2 _ hmem
      have := dateLe_monthIndex hle
      omega
  · show r.date.monthIndex - baselineMonth df r.target_audience = 0 ↔
      r.date.monthIndex = baselineMonth df r.target_audience
    omega

/-- Witness for `months_since_first_nonneg` at a concrete dataset. -/
theorem months_since_first_nonneg_witness :
    exCohortRow ∈ create_cohorts exCohortDf ∧
      (0 ≤ exCohortRow.months_since_first ∧
        (exCohortRow.months_since_first = 0 ↔
          exCohortRow.cohort_month = baselineMonth exCohortDf exCohortRow.target_audience)) :=
  ⟨by decide, months_since_first_nonneg exCohortDf exCohortRow (by decide)⟩

theorem dedup_ne_nil {α : Type} [DecidableEq α] {l : List α} (h : l ≠ []) :
    l.dedup ≠ [] := by
  cases l with
  | nil => exact absurd rfl h
  | cons a l =>
    intro hd
    have ha : a ∈ (a :: l).dedup := List.mem_dedup.mpr (List.mem_cons_self a l)
    rw [hd] at ha
    cases ha

/-- C2, counterexample.  With one audience appearing in January and
March 2023, the cohort row for March has no cell at offset 0 (its only
record sits at offset 2), so the normalized retention cell at
`months_since_first = 0` of that row is NaN — not 1.0. -/
theorem retention_baseline_fails :
    ¬ (∀ cm ∈ cohortMonths (create_cohorts exCohortDf),
        retentionCell (create_cohorts exCohortDf) cm 0 = some 1) := by
  decide

/-- C2, amended.  For every cohort row that HAS a cell at
`months_since_first = 0`, the normalized retention value there is exactly 1:
the cell is a distinct-audience count of a non-empty bucket, hence nonzero,
and it is divided by itself. -/
theorem retention_baseline_amended (adf : List CohortRow) (cm : ℤ)
    (h : (cohortCell adf cm 0).isSome = true) :
    retentionCell adf cm 0 = some 1 := by
  unfold retentionCell
  cases hc : cohortCell adf cm 0 with
  | none => rw [hc] at h; cases h
  | some d =>
    have hd : d ≠ 0 := by
      unfold cohortCell at hc
      by_cases hg : cohortGroup adf cm 0 = []
      · rw [if_pos hg] at hc; cases hc
      · rw [if_neg hg] at hc
        have hval : (nuniqueAudience (cohortGroup adf cm 0) : ℚ) = d := by
          exact Option.some.inj hc
        rw [← hval]
        have hpos : 0 < nuniqueAudience (cohortGroup adf cm 0) := by
          apply List.length_pos.mpr
          apply dedup_ne_nil
          intro hmap
          exact hg (List.map_eq_nil_iff.mp hmap)
        exact_mod_cast Nat.pos_iff_ne_zero.mp hpos
    show some (d / d) = some 1
    rw [div_self hd]

/-- Witness for `retention_baseline_amended` at a concrete dataset. -/
theorem retention_baseline_amended_witness :
    ((cohortCell (create_cohorts exCohortDfOne) 24276 0).isSome = true) ∧
      retentionCell (create_cohorts exCohortDfOne) 24276 0 = some 1 :=
  ⟨by decide, retention_baseline_amended (create_cohorts exCohortDfOne) 24276 (by decide)⟩

/-- C6, amended.  `significant` is true iff the UNROUNDED p-value — the
survival function applied to the F-statistic — is below 0.05.  (Stated for
every survival function and every group decomposition.) -/
theorem anova_significant_iff (sf : ℚ → ℚ) (groups : List (List ℚ)) :
    ((anovaEntry sf groups).significant = true) ↔ sf (fStat groups) < 1/20 := by
  simp [anovaEntry]

/-- C6, counterexample.  When the true p-value is 0.0496 the source sets
`significant = True`, but the reported `p_value` is rounded to 0.05, which
is not `< 0.05`: the claimed equivalence with the REPORTED p-value fails. -/
theorem anova_significant_reported_fails :
    ¬ (∀ e ∈ perform_statistical_analysis (fun _ => (62 : ℚ)/1250) exChDf,
        ((e.2.significant = true) ↔ e.2.p_value < 1/20)) := by
  decide

/-- C9, counterexample.  For a channel above the global mean on every
metric, the recommendation list contains only the single ROI advisory —
the other four comparisons produce no string — so "each of the five
comparisons yields an advisory string" fails. -/
theorem recommendations_five_fails :
    ¬ (∀ p ∈ calculate_channel_recommendations exChDf, p.2.length = 5) := by
  decide

/-- C9, amended.  The recommendation generator is the deterministic rule
table actually implemented: per channel, the ROI comparison always yields
exactly one advisory (increase-budget if the channel mean exceeds the
global mean, review-strategy otherwise — ties included), while the other
four comparisons yield their advisory only when unfavourable: conversion
rate below, acquisition cost above, engagement score below, engagement
rate below the global mean. -/
theorem recommendations_rule_table (df : List ChRecord) (ch : String) :
    (Advisory.increaseBudget (channelMean df ch (fun r => r.roi)) ∈ recsFor df ch ↔
      channelMean df ch (fun r => r.roi) > globalMean df (fun r => r.roi)) ∧
    (Advisory.reviewStrategy (channelMean df ch (fun r => r.roi)) ∈ recsFor df ch ↔
      ¬ channelMean df ch (fun r => r.roi) > globalMean df (fun r => r.roi)) ∧
    (Advisory.lowConversion (channelMean df ch (fun r => r.conversion_rate)) ∈ recsFor df ch ↔
      channelMean df ch (fun r => r.conversion_rate) < globalMean df (fun r => r.conversion_rate)) ∧
    (Advisory.highCost (channelMean df ch (fun r => r.acquisition_cost)) ∈ recsFor df ch ↔
      channelMean df ch (fun r => r.acquisition_cost) > globalMean df (fun r => r.acquisition_cost)) ∧
    (Advisory.lowEngagement (channelMean df ch (fun r => r.engagement_score)) ∈ recsFor df ch ↔
      channelMean df ch (fun r => r.engagement_score) < globalMean df (fun r => r.engagement_score)) ∧
    (Advisory.lowEngagementRate (channelMean df ch (fun r => r.engagement_rate)) ∈ recsFor df ch ↔
      channelMean df ch (fun r => r.engagement_rate) < globalMean df (fun r => r.engagement_rate)) := by
  unfold recsFor
  split_ifs <;> simp_all

/-- C10.  Recency is relative to the invocation instant: every reported
`Recency_Days` equals the floor of (now − group's latest date) in days, and
two runs on the SAME dataset at different instants can differ — the RFM
output is a function of (dataset, instant), not of the dataset alone. -/
theorem rfm_recency_clock (now : ℤ) (df : List SegRecord) (p : String × RfmRow)
    (hp : p ∈ calculate_rfm_metrics now df) :
    p.2.recency_days
      = Int.fdiv (now - maxDateSec ((audienceRows df p.1).map (fun r => r.dateSec))) 86400 ∧
    (∃ t1 t2 : ℤ, ∃ d : List SegRecord,
      calculate_rfm_metrics t1 d ≠ calculate_rfm_metrics t2 d) := by
  constructor
  · rcases List.mem_map.mp hp with ⟨a, ha, rfl⟩
    rfl
  · exact ⟨86400, 172800, exSegDf, by decide⟩

/-- Witness for `rfm_recency_clock` at a concrete dataset and instant. -/
theorem rfm_recency_clock_witness :
    (rfmRow 86400 exSegDf "A").recency_days
      = Int.fdiv (86400 - maxDateSec ((audienceRows exSegDf "A").map (fun r => r.dateSec))) 86400 ∧
    (∃ t1 t2 : ℤ, ∃ d : List SegRecord,
      calculate_rfm_metrics t1 d ≠ calculate_rfm_metrics t2 d) :=
  rfm_recency_clock 86400 exSegDf ("A", rfmRow 86400 exSegDf "A") (by decide)

theorem map_fst_pair {α β : Type} (g : α → β) :
    ∀ l : List α, ((l.map (fun i => (i, g i))).map Prod.fst) = l := by
  intro l
  induction l with
  | nil => rfl
  | cons a l ih => simp only [List.map_cons]; rw [ih]

theorem argminGo_lt (f : List ℚ → ℚ) : ∀ (cs : List (List ℚ)) (bi : Nat) (bv : ℚ) (i : Nat),
    bi < i → argminGo f bi bv i cs < i + cs.length := by
  intro cs
  induction cs with
  | nil =>
    intro bi bv i h
    unfold argminGo
    omega
  | cons c cs ih =>
    intro bi bv i h
    unfold argminGo
    by_cases hc : f c < bv
    · rw [if_pos hc]
      have := ih i (f c) (i + 1) (by omega)
      simp only [List.length_cons]
      omega
    · rw [if_neg hc]
      have := ih bi bv (i + 1) (by omega)
      simp only [List.length_cons]
      omega

theorem assign_lt (w : List ℚ) (p : List ℚ) (cents : List (List ℚ)) (h : cents ≠ []) :
    assign w cents p < cents.length := by
  cases cents with
  | nil => exact absurd rfl h
  | cons c cs =>
    unfold assign
    have := argminGo_lt (fun c2 => dist2 w p c2) cs 0 (dist2 w p c) 1 (by omega)
    simp only [List.length_cons]
    omega

theorem length_kstep (k : Nat) (w : List ℚ) (pts cents : List (List ℚ)) :
    (kstep k w pts cents).length = k := by
  unfold kstep; simp

theorem length_lloyd (k : Nat) (w : List ℚ) (pts : List (List ℚ)) :
    ∀ (fuel : Nat) (cents : List (List ℚ)),
      cents.length = k → (lloyd k w pts fuel cents).length = k := by
  intro fuel
  induction fuel with
  | zero => intro cents h; exact h
  | succ n ih =>
    intro cents h
    unfold lloyd
    by_cases hc : kstep k w pts cents = cents
    · rw [if_pos hc]; exact h
    · rw [if_neg hc]; exact ih _ (length_kstep k w pts cents)

theorem length_initCentroids (k seed : Nat) (pts : List (List ℚ)) :
    (initCentroids k seed pts).length = k := by
  unfold initCentroids; simp

/-- C5.  For any input and any requested k > 0: every record receives
exactly one cluster label and it lies in [0, k); two runs of the (pure,
fixed-seed) clustering on the same input are identical; and the
cluster-statistics table enumerates exactly the k requested cluster ids
0..k-1. -/
theorem cluster_assignment_det (df : List SegRecord) (k : Nat) (hk : 0 < k) :
    (perform_cluster_labels k df).length = df.length ∧
    (∀ l ∈ perform_cluster_labels k df, l < k) ∧
    perform_cluster_labels k df = perform_cluster_labels k df ∧
    (clusterStats k df (perform_cluster_labels k df)).map Prod.fst = List.range k := by
  refine ⟨?_, ?_, rfl, ?_⟩
  · unfold perform_cluster_labels centered
    simp
  · intro l hl
    unfold perform_cluster_labels at hl
    rcases List.mem_map.mp hl with ⟨p, hp, rfl⟩
    have hlen : (lloyd k (scaleWeights (df.map featuresOf)) (centered (df.map featuresOf)) 300
        (initCentroids k 42 (centered (df.map featuresOf)))).length = k :=
      length_lloyd k _ _ 300 _ (length_initCentroids k 42 _)
    have hne : lloyd k (scaleWeights (df.map featuresOf)) (centered (df.map featuresOf)) 300
        (initCentroids k 42 (centered (df.map featuresOf))) ≠ [] := by
      intro hnil
      rw [hnil] at hlen
      simp at hlen
      omega
    have := assign_lt (scaleWeights (df.map featuresOf)) p _ hne
    omega
  · unfold clusterStats
    exact map_fst_pair _ (List.range k)

/-- Witness for `cluster_assignment_det` at a concrete dataset and k = 2. -/
theorem cluster_assignment_det_witness :
    0 < 2 ∧
    ((perform_cluster_labels 2 exSegDf2).length = exSegDf2.length ∧
     (∀ l ∈ perform_cluster_labels 2 exSegDf2, l < 2) ∧
     perform_cluster_labels 2 exSegDf2 = perform_cluster_labels 2 exSegDf2 ∧
     (clusterStats 2 exSegDf2 (perform_cluster_labels 2 exSegDf2)).map Prod.fst = List.range 2) :=
  ⟨by decide, cluster_assignment_det exSegDf2 2 (by decide)⟩
